import Mathlib

/-!
Verification of the bloom wellness-journal analytics and storage layer.

Shallow embedding of:
* the `FeelingsAnalyticsEngine` used by `src/bloom/app/(tabs)/screens/JournalScreen.tsx`
  (the engine module `utils/feelingsAnalytics.ts` itself is not part of the source tree,
  so its operations are modelled from the specification, as marked on each definition);
* the in-memory branch of `FallbackStorage` from `src/bloom/components/fallback-storage.ts`;
* the `addEntry` handler of the HRT `CalendarScreen`.

Numbers that the TypeScript code treats as JS floats appear here as `ℚ`:
all arithmetic involved (sums, counts, division by small integers) is exact
in the ranges these functions use.
-/

namespace Bloom

/-- Modelled from the spec: `FeelingSelection` from `types/feelings.ts` (not under the
source tree) — a user's chosen pair of a CoreFeeling identifier and a SpecificFeeling
identifier. -/
structure FeelingSelection where
  coreId : String
  specificId : String
deriving DecidableEq, Repr

/-- Modelled from the spec (Design Notes): the engine's explicit input record — a
`FeelingSelection` together with the day-of-week label derived from the containing
journal entry's ISO-8601 timestamp, when the caller supplies one.  The journal screen
passes bare selections, i.e. entries whose `weekday` is `none`. -/
structure EngineEntry where
  sel : FeelingSelection
  weekday : Option String
deriving DecidableEq, Repr

/-- Modelled from the spec: the fixed CoreFeeling taxonomy — "a small fixed enumerated
set (e.g., joy, sadness, anger, fear, ...)" of identifiers. -/
def coreFeelingIds : List String :=
  ["joy", "sadness", "anger", "fear", "surprise", "disgust", "love"]

/-- Modelled from the spec: the fixed per-CoreFeeling valence table ("joy=high,
sadness=low"), on the same 0–10 scale as the mood score; identifiers outside the
taxonomy score the neutral 5. -/
def valence (c : String) : ℚ :=
  if c = "joy" then 9
  else if c = "love" then 8
  else if c = "surprise" then 6
  else if c = "disgust" then 3
  else if c = "anger" then 2
  else if c = "fear" then 2
  else if c = "sadness" then 1
  else 5

/-- Modelled from the spec: the fixed "recent window" size (the most recent 5 entries). -/
def recentWindowSize : Nat := 5

/-- Modelled from the spec: the small fixed threshold for the trend comparison. -/
def trendThreshold : ℚ := 1/2

/-- Mean valence of a list of selections (only ever used on nonempty windows). -/
def meanValence (l : List FeelingSelection) : ℚ :=
  (l.map (fun s => valence s.coreId)).sum / l.length

/-- Modelled from the spec: `coreDistribution` — tally occurrences of each CoreFeeling
identifier present in the input; identifiers with zero occurrences are omitted (the
mapping is sparse).  Malformed-selection policy chosen per the spec's open question:
the CoreFeeling id alone is authoritative, so no entry is excluded. -/
def coreDistribution (entries : List EngineEntry) : List (String × Nat) :=
  let cores := entries.map (fun e => e.sel.coreId)
  cores.dedup.map (fun c => (c, cores.count c))

/-- Modelled from the spec: `weeklyPatterns` — tally counts per weekday name over the
entries that carry a timestamp; without timestamps this field cannot be computed, so
entries lacking one contribute nothing. -/
def weeklyPatterns (entries : List EngineEntry) : List (String × Nat) :=
  let days := entries.filterMap (fun e => e.weekday)
  days.dedup.map (fun d => (d, days.count d))

/-- Modelled from the spec: `recentTrend` — compare the mean valence of the recent
window (the last `recentWindowSize` entries, the input being ordered oldest-to-newest)
against the older window (the remainder); "improving" when the recent mean exceeds the
older mean by more than the threshold, "declining" when below by more than the
threshold, otherwise "stable"; with fewer than 2 entries, or all entries in one window,
default to "stable". -/
def recentTrend (entries : List EngineEntry) : String :=
  let sels := entries.map (fun e => e.sel)
  if sels.length < 2 then "stable"
  else
    let olderCount := sels.length - recentWindowSize
    let older := sels.take olderCount
    let recent := sels.drop olderCount
    if older.isEmpty then "stable"
    else
      let recentMean := meanValence recent
      let olderMean := meanValence older
      if olderMean + trendThreshold < recentMean then "improving"
      else if recentMean < olderMean - trendThreshold then "declining"
      else "stable"

/-- Modelled from the spec: the `FeelingsAnalytics` snapshot. -/
structure FeelingsAnalytics where
  coreDistribution : List (String × Nat)
  weeklyPatterns : List (String × Nat)
  recentTrend : String
deriving DecidableEq, Repr

/-- Modelled from the spec: `FeelingsAnalyticsEngine.analyzeFeelings`. -/
def analyzeFeelings (entries : List EngineEntry) : FeelingsAnalytics :=
  { coreDistribution := coreDistribution entries
    weeklyPatterns := weeklyPatterns entries
    recentTrend := recentTrend entries }

/-- Modelled from the spec: `getRecentMoodScore` — the mean valence-mapped score over
the most recent `recentWindowSize` entries (or all if fewer), already on the 0–10
scale; the neutral 5 on empty input. -/
def getRecentMoodScore (sels : List FeelingSelection) : ℚ :=
  if sels.length = 0 then 5
  else meanValence (sels.drop (sels.length - recentWindowSize))

/-- Modelled from the spec: `getEmotionalDiversity` — ratio of distinct CoreFeeling
identifiers observed to the size of the taxonomy. -/
def getEmotionalDiversity (sels : List FeelingSelection) : ℚ :=
  (((sels.map (fun s => s.coreId)).dedup.length : ℚ)) / (coreFeelingIds.length : ℚ)

/-- Total number of entries a snapshot was computed from, recovered from the
distribution counts. -/
def totalEntryCount (a : FeelingsAnalytics) : Nat :=
  (a.coreDistribution.map Prod.snd).sum

/-- The CoreFeeling identifier with the highest count in the snapshot, if any. -/
def dominantCore (a : FeelingsAnalytics) : Option String :=
  (a.coreDistribution.foldl
    (fun acc p =>
      match acc with
      | none => some p
      | some q => if q.2 < p.2 then some p else some q)
    none).map Prod.fst

/-- Modelled from the spec: `getInsights` — human-readable observations derived purely
from the snapshot; empty when the snapshot was computed from fewer than 3 entries. -/
def getInsights (a : FeelingsAnalytics) : List String :=
  if totalEntryCount a < 3 then []
  else
    (match dominantCore a with
      | some c => ["Your most common feeling recently has been " ++ c ++ "."]
      | none => []) ++
    (if a.recentTrend = "improving"
      then ["You have shown improvement over your last entries."]
      else [])

/-- State of `FallbackStorage` (src/bloom/components/fallback-storage.ts): the detected
storage method (one of the strings "localStorage", "memory", "none") and the in-memory
key-value object `memoryStore`.  The browser `localStorage` backend is an external
collaborator outside this model, so in that mode reads of the modelled state are not
meaningful; the claims here concern the "memory" mode only. -/
structure FallbackStorage where
  storageMethod : String
  memoryStore : String → Option String

/-- Operation `FallbackStorage.setItem`: in memory mode, `this.memoryStore[key] = value`; the
localStorage branch writes to the external store (no modelled state changes), and the
default branch does nothing. -/
def FallbackStorage.setItem (st : FallbackStorage) (key value : String) :
    FallbackStorage :=
  if st.storageMethod = "memory" then
    { st with memoryStore := fun k => if k = key then some value else st.memoryStore k }
  else st

/-- Operation `FallbackStorage.getItem`: in memory mode, `this.memoryStore[key] || null` — a
missing key gives `null`, and a stored falsy value (the empty string) is coalesced to
`null`; the localStorage branch reads the external store and the default branch
returns `null`, both modelled as `none` here. -/
def FallbackStorage.getItem (st : FallbackStorage) (key : String) : Option String :=
  if st.storageMethod = "memory" then
    match st.memoryStore key with
    | some v => if v = "" then none else some v
    | none => none
  else none

/-- Record `HrtEntry` from `types.ts` (embedded in src/bloom/components/fallback-storage.ts):
an entry type ("hrt" or "milestone"), free-text notes, and an ISO timestamp. -/
structure HrtEntry where
  type : String
  notes : String
  timestamp : String
deriving DecidableEq, Repr

/-- Handler `addEntry` of the HRT `CalendarScreen`: with no selected date (the empty string is
falsy) it alerts and saves nothing (`none` here); otherwise it builds the new entry
from the form state plus the current time and saves `{...hrtEntries,
[selectedDate]: newEntry}` — the spread copies every date's entry and the computed key
then overwrites the one under `selectedDate`. -/
def addEntry (hrtEntries : String → Option HrtEntry) (selectedDate : String)
    (entryType entryNotes timestamp : String) :
    Option (String → Option HrtEntry) :=
  if selectedDate = "" then none
  else
    some (fun d =>
      if d = selectedDate then some ⟨entryType, entryNotes, timestamp⟩
      else hrtEntries d)

/-! ## Helper lemmas -/

/-- Summing the counts attached by a dedup-and-count tally recovers the length of the
tallied list. -/
theorem dedup_count_sum {α : Type} [DecidableEq α] (l : List α) :
    ((l.dedup.map (fun c => (c, l.count c))).map Prod.snd).sum = l.length := by
  rw [List.map_map]
  simpa [Function.comp] using List.sum_map_count_dedup_eq_length l

/-- The `coreDistribution` counts of a snapshot sum to the number of entries it was
computed from. -/
theorem coreDistribution_counts_sum (entries : List EngineEntry) :
    ((coreDistribution entries).map Prod.snd).sum = entries.length := by
  unfold coreDistribution
  rw [dedup_count_sum]
  exact List.length_map _ _

/-- A duplicate-free list contained in another list is no longer than it. -/
theorem nodup_subset_length_le {α : Type} [DecidableEq α] {l₁ l₂ : List α}
    (h₁ : l₁.Nodup) (h : l₁ ⊆ l₂) : l₁.length ≤ l₂.length :=
  calc l₁.length = l₁.toFinset.card := (List.toFinset_card_of_nodup h₁).symm
    _ ≤ l₂.toFinset.card := Finset.card_le_card (fun a ha => by
        rw [List.mem_toFinset] at ha ⊢; exact h ha)
    _ ≤ l₂.length := l₂.toFinset_card_le

/-! ## Claim theorems -/

/-- C1: for every input sequence, the `coreDistribution` returned by `analyzeFeelings`
has values summing to the length of the input (the chosen malformed-entry policy —
the CoreFeeling id is authoritative — excludes nothing), and every key present has a
strictly positive count. -/
theorem analyzeFeelings_coreDistribution_sum_pos (entries : List EngineEntry) :
    (((analyzeFeelings entries).coreDistribution).map Prod.snd).sum = entries.length ∧
    ∀ p ∈ (analyzeFeelings entries).coreDistribution, 0 < p.2 := by
  refine ⟨coreDistribution_counts_sum entries, ?_⟩
  intro p hp
  have hp' : p ∈ coreDistribution entries := hp
  unfold coreDistribution at hp'
  rw [List.mem_map] at hp'
  obtain ⟨c, hc, rfl⟩ := hp'
  have hmem : c ∈ entries.map (fun e => e.sel.coreId) := List.mem_dedup.mp hc
  exact List.count_pos_iff.mpr hmem

/-- C1 witness: evaluated on a concrete one-entry input. -/
theorem analyzeFeelings_coreDistribution_sum_pos_witness :
    (((analyzeFeelings [⟨⟨"joy", "content"⟩, none⟩]).coreDistribution).map
      Prod.snd).sum = 1 ∧ 0 < (("joy", 1) : String × Nat).2 :=
  ⟨(analyzeFeelings_coreDistribution_sum_pos [⟨⟨"joy", "content"⟩, none⟩]).1,
    (analyzeFeelings_coreDistribution_sum_pos [⟨⟨"joy", "content"⟩, none⟩]).2
      ("joy", 1) (by decide)⟩

/-- C3: on the empty input, `analyzeFeelings` returns empty mappings and the trend
"stable", the snapshot supports no insights, and the supplementary queries return
their documented defaults — no operation signals failure (all are total). -/
theorem analyzeFeelings_empty_defaults :
    (analyzeFeelings []).coreDistribution = [] ∧
    (analyzeFeelings []).weeklyPatterns = [] ∧
    (analyzeFeelings []).recentTrend = "stable" ∧
    getInsights (analyzeFeelings []) = [] ∧
    getRecentMoodScore [] = 5 ∧
    getEmotionalDiversity [] = 0 := by
  refine ⟨rfl, rfl, rfl, rfl, rfl, ?_⟩
  simp [getEmotionalDiversity]

/-- C7: `getInsights` is empty whenever the snapshot was computed from fewer than 3
entries, and is a deterministic function of the snapshot alone. -/
theorem getInsights_sparse_empty_deterministic :
    (∀ entries : List EngineEntry, entries.length < 3 →
      getInsights (analyzeFeelings entries) = []) ∧
    ∀ a b : FeelingsAnalytics, a = b → getInsights a = getInsights b := by
  constructor
  · intro entries h
    unfold getInsights
    rw [if_pos]
    have htot : totalEntryCount (analyzeFeelings entries) = entries.length :=
      coreDistribution_counts_sum entries
    omega
  · intro a b h
    rw [h]

/-- C7 witness: evaluated on a concrete one-entry input. -/
theorem getInsights_sparse_empty_deterministic_witness :
    getInsights (analyzeFeelings [⟨⟨"joy", "content"⟩, none⟩]) = [] :=
  getInsights_sparse_empty_deterministic.1 [⟨⟨"joy", "content"⟩, none⟩] (by decide)

/-- Every valence in the table (and the neutral default) lies on the 0–10 scale. -/
theorem valence_bounds (c : String) : 0 ≤ valence c ∧ valence c ≤ 10 := by
  unfold valence
  split_ifs <;> norm_num

/-- The mean valence of a nonempty list of selections lies on the 0–10 scale. -/
theorem meanValence_bounds (l : List FeelingSelection) (hl : l ≠ []) :
    0 ≤ meanValence l ∧ meanValence l ≤ 10 := by
  unfold meanValence
  have hlen : (0 : ℚ) < l.length := by
    have h := List.length_pos.mpr hl
    exact_mod_cast h
  constructor
  · apply div_nonneg _ (le_of_lt hlen)
    apply List.sum_nonneg
    intro x hx
    obtain ⟨s, _, rfl⟩ := List.mem_map.mp hx
    exact (valence_bounds s.coreId).1
  · rw [div_le_iff₀ hlen]
    have hsum : (l.map (fun s => valence s.coreId)).sum ≤
        (l.map (fun s => valence s.coreId)).length • (10 : ℚ) := by
      apply List.sum_le_card_nsmul
      intro x hx
      obtain ⟨s, _, rfl⟩ := List.mem_map.mp hx
      exact (valence_bounds s.coreId).2
    rw [List.length_map, nsmul_eq_mul] at hsum
    linarith

/-- C5: `getRecentMoodScore` is 5 on the empty input; on any input no longer than the
window it is the mean valence of all entries (the whole input is the window); and on
every input the result lies in the range 0–10. -/
theorem getRecentMoodScore_spec :
    getRecentMoodScore [] = 5 ∧
    (∀ sels : List FeelingSelection, sels ≠ [] →
      sels.length ≤ recentWindowSize → getRecentMoodScore sels = meanValence sels) ∧
    ∀ sels : List FeelingSelection,
      0 ≤ getRecentMoodScore sels ∧ getRecentMoodScore sels ≤ 10 := by
  refine ⟨rfl, ?_, ?_⟩
  · intro sels hne hlen
    unfold getRecentMoodScore
    rw [if_neg (fun h => hne (List.length_eq_zero.mp h))]
    rw [Nat.sub_eq_zero_of_le hlen, List.drop_zero]
  · intro sels
    unfold getRecentMoodScore
    by_cases h0 : sels.length = 0
    · rw [if_pos h0]
      norm_num
    · rw [if_neg h0]
      apply meanValence_bounds
      intro hdrop
      have := congrArg List.length hdrop
      rw [List.length_drop] at this
      simp only [List.length_nil] at this
      unfold recentWindowSize at this
      omega

/-- C5 witness: evaluated on a concrete one-entry input. -/
theorem getRecentMoodScore_spec_witness :
    getRecentMoodScore [⟨"joy", "content"⟩] = meanValence [⟨"joy", "content"⟩] :=
  getRecentMoodScore_spec.2.1 [⟨"joy", "content"⟩] (by decide) (by decide)

/-- C6: `getEmotionalDiversity` is 0 on the empty input; for every input whose
CoreFeeling identifiers come from the taxonomy the result lies in the range 0–1; and
five entries all tagged with one core feeling yield exactly 1/N, N the taxonomy
size. -/
theorem getEmotionalDiversity_spec :
    getEmotionalDiversity [] = 0 ∧
    (∀ sels : List FeelingSelection,
      (∀ s ∈ sels, s.coreId ∈ coreFeelingIds) →
      0 ≤ getEmotionalDiversity sels ∧ getEmotionalDiversity sels ≤ 1) ∧
    ∀ s : FeelingSelection,
      getEmotionalDiversity (List.replicate 5 s) = 1 / (coreFeelingIds.length : ℚ) := by
  refine ⟨by simp [getEmotionalDiversity], ?_, ?_⟩
  · intro sels hmem
    unfold getEmotionalDiversity
    have hN : (0 : ℚ) < (coreFeelingIds.length : ℚ) := by
      unfold coreFeelingIds
      norm_num
    constructor
    · positivity
    · rw [div_le_one hN]
      have hsub : (sels.map (fun s => s.coreId)).dedup ⊆ coreFeelingIds := by
        intro c hc
        obtain ⟨s, hs, rfl⟩ := List.mem_map.mp (List.mem_dedup.mp hc)
        exact hmem s hs
      have hle := nodup_subset_length_le (List.nodup_dedup _) hsub
      exact_mod_cast hle
  · intro s
    unfold getEmotionalDiversity
    rw [List.map_replicate, List.replicate_dedup (by norm_num)]
    norm_num

/-- C6 witness: evaluated on a concrete all-joy input. -/
theorem getEmotionalDiversity_spec_witness :
    0 ≤ getEmotionalDiversity [⟨"joy", "content"⟩] ∧
      getEmotionalDiversity [⟨"joy", "content"⟩] ≤ 1 :=
  getEmotionalDiversity_spec.2.1 [⟨"joy", "content"⟩] (by decide)

/-- The table valence of "sadness", the low end of the scale. -/
theorem valence_sadness : valence "sadness" = 1 := rfl

/-- The table valence of "joy", the high end of the scale. -/
theorem valence_joy : valence "joy" = 9 := rfl

/-- C2: `recentTrend` is "stable" for every input with fewer than 2 entries and for
every input short enough that all entries fall in the recent window; and for the
spec's scenario — an older half of "sadness" entries followed by a newer half of
"joy" entries, long enough to fill both windows — it is "improving" (valence of
sadness is below valence of joy). -/
theorem analyzeFeelings_recentTrend_spec :
    (∀ entries : List EngineEntry, entries.length < 2 →
      (analyzeFeelings entries).recentTrend = "stable") ∧
    (∀ entries : List EngineEntry, entries.length ≤ recentWindowSize →
      (analyzeFeelings entries).recentTrend = "stable") ∧
    (analyzeFeelings (List.replicate 5 ⟨⟨"sadness", "lonely"⟩, none⟩ ++
        List.replicate 5 ⟨⟨"joy", "content"⟩, none⟩)).recentTrend = "improving" := by
  have hwin : ∀ entries : List EngineEntry, entries.length ≤ recentWindowSize →
      (analyzeFeelings entries).recentTrend = "stable" := by
    intro entries h
    have : (analyzeFeelings entries).recentTrend = recentTrend entries := rfl
    rw [this]
    unfold recentTrend
    simp only [List.length_map]
    by_cases h2 : entries.length < 2
    · rw [if_pos h2]
    · rw [if_neg h2, Nat.sub_eq_zero_of_le h]
      simp
  refine ⟨?_, hwin, ?_⟩
  · intro entries h
    exact hwin entries (le_trans (Nat.le_of_lt_succ (Nat.lt_succ_of_lt h))
      (by unfold recentWindowSize; omega))
  · norm_num [analyzeFeelings, recentTrend, meanValence, recentWindowSize,
      trendThreshold, List.replicate, valence_sadness, valence_joy]

/-- C2 witness: the small-input default evaluated on a concrete one-entry input. -/
theorem analyzeFeelings_recentTrend_spec_witness :
    (analyzeFeelings [⟨⟨"joy", "content"⟩, none⟩]).recentTrend = "stable" :=
  analyzeFeelings_recentTrend_spec.1 [⟨⟨"joy", "content"⟩, none⟩] (by decide)

/-- A `filterMap` by an `Option`-valued field keeps as many elements as the filter
by presence of that field. -/
theorem filterMap_weekday_length (es : List EngineEntry) :
    (es.filterMap (fun e => e.weekday)).length =
      (es.filter (fun e => e.weekday.isSome)).length := by
  induction es with
  | nil => rfl
  | cons e t ih =>
    cases h : e.weekday <;>
      simp [List.filterMap_cons, List.filter_cons, h, ih]

/-- C4: the `weeklyPatterns` counts sum to the number of input entries that carry a
timestamp; in particular, when the caller supplies bare selections (no entry carries
a timestamp, as the journal screen does), the mapping is empty. -/
theorem analyzeFeelings_weeklyPatterns_sum (entries : List EngineEntry) :
    (((analyzeFeelings entries).weeklyPatterns).map Prod.snd).sum =
      (entries.filter (fun e => e.weekday.isSome)).length ∧
    ((∀ e ∈ entries, e.weekday = none) →
      (analyzeFeelings entries).weeklyPatterns = []) := by
  constructor
  · have : (analyzeFeelings entries).weeklyPatterns = weeklyPatterns entries := rfl
    rw [this]
    unfold weeklyPatterns
    rw [dedup_count_sum]
    exact filterMap_weekday_length entries
  · intro hnone
    have : (analyzeFeelings entries).weeklyPatterns = weeklyPatterns entries := rfl
    rw [this]
    unfold weeklyPatterns
    have hnil : entries.filterMap (fun e => e.weekday) = [] :=
      List.filterMap_eq_nil_iff.mpr hnone
    rw [hnil]
    rfl

/-- C4 witness: evaluated on a concrete one-entry input following the journal
screen's convention (no timestamps). -/
theorem analyzeFeelings_weeklyPatterns_sum_witness :
    (analyzeFeelings [⟨⟨"joy", "content"⟩, none⟩]).weeklyPatterns = [] :=
  (analyzeFeelings_weeklyPatterns_sum [⟨⟨"joy", "content"⟩, none⟩]).2 (by decide)

/-- C8: `analyzeFeelings` is deterministic — two invocations on the same input
sequence yield identical snapshots.  The embedding is a pure function of its input,
so it can neither perform I/O nor mutate the input sequence. -/
theorem analyzeFeelings_deterministic (es fs : List EngineEntry) (h : es = fs) :
    analyzeFeelings es = analyzeFeelings fs := by
  rw [h]

/-- C8 witness: two invocations on a concrete input agree. -/
theorem analyzeFeelings_deterministic_witness :
    analyzeFeelings [⟨⟨"joy", "content"⟩, none⟩] =
      analyzeFeelings [⟨⟨"joy", "content"⟩, none⟩] :=
  analyzeFeelings_deterministic [⟨⟨"joy", "content"⟩, none⟩]
    [⟨⟨"joy", "content"⟩, none⟩] rfl

/-- C9: in memory mode, `setItem k v` followed by `getItem k` returns `v` when `v` is
nonempty, and `none` when `v` is the empty string (falsy stored values are coalesced
to `null` by `memoryStore[key] || null`). -/
theorem fallbackStorage_memory_roundtrip (st : FallbackStorage) (k v : String)
    (hmem : st.storageMethod = "memory") :
    (st.setItem k v).getItem k = if v = "" then none else some v := by
  unfold FallbackStorage.setItem FallbackStorage.getItem
  rw [if_pos hmem]
  simp [hmem]

/-- C9 witness: a concrete in-memory round-trip of a nonempty value. -/
theorem fallbackStorage_memory_roundtrip_witness :
    (FallbackStorage.setItem ⟨"memory", fun _ => none⟩ "journalEntries"
        "[]").getItem "journalEntries" = some "[]" := by
  have h := fallbackStorage_memory_roundtrip ⟨"memory", fun _ => none⟩
    "journalEntries" "[]" rfl
  simpa using h

/-- C10: with a (nonempty) selected date, `addEntry` saves a map holding exactly the
new entry under that date — silently overwriting any entry already there — and the
entry of every other date unchanged. -/
theorem addEntry_overwrites_frame (hrtEntries : String → Option HrtEntry)
    (selectedDate entryType entryNotes timestamp : String)
    (hsel : selectedDate ≠ "") (m : String → Option HrtEntry)
    (hm : addEntry hrtEntries selectedDate entryType entryNotes timestamp = some m) :
    m selectedDate = some ⟨entryType, entryNotes, timestamp⟩ ∧
    ∀ d, d ≠ selectedDate → m d = hrtEntries d := by
  unfold addEntry at hm
  rw [if_neg hsel] at hm
  obtain rfl : _ = m := Option.some.inj hm
  constructor
  · simp
  · intro d hd
    simp [hd]

/-- C10 witness: a concrete save over an occupied date, checked at the overwritten
date and at an untouched one. -/
theorem addEntry_overwrites_frame_witness :
    (fun d => if d = "2024-01-02" then some (HrtEntry.mk "hrt" "dose" "t1") else
        (fun x => if x = "2024-01-01" then some (HrtEntry.mk "milestone" "old" "t0")
          else none) d) "2024-01-02" = some (HrtEntry.mk "hrt" "dose" "t1") ∧
    (fun d => if d = "2024-01-02" then some (HrtEntry.mk "hrt" "dose" "t1") else
        (fun x => if x = "2024-01-01" then some (HrtEntry.mk "milestone" "old" "t0")
          else none) d) "2024-01-01" = some (HrtEntry.mk "milestone" "old" "t0") := by
  have h := addEntry_overwrites_frame
    (fun x => if x = "2024-01-01" then some (HrtEntry.mk "milestone" "old" "t0")
      else none)
    "2024-01-02" "hrt" "dose" "t1" (by decide) _ rfl
  exact ⟨h.1, h.2 "2024-01-01" (by decide)⟩

end Bloom
